import Mathlib

/-!
Verification of `deap/creator.py`: a runtime type factory (`create`), its
replacement registry (`class_replacers`) and the fixed-typecode array
replacement class (`_array`).

Shallow embedding conventions:
* Python attribute values are `PyVal`: an immutable primitive, a heap object
  with an identity (`obj id` — identity is what `is` compares), or a
  zero-argument callable.  A callable is modelled as a function that receives
  the allocator state (a fresh-object counter) and returns the produced value
  together with the new allocator state, so that producers that allocate a
  fresh object on every call are expressible next to producers that return a
  shared object.
* Python dicts keyed by strings are association lists with first-match lookup;
  assignment removes the old binding and prepends the new one.
* An instance under construction is `Inst`: its `__dict__` plus a trace of the
  calls made to the base type's `__init__` (each recorded with the positional
  and keyword arguments it was given).
* A type object is `PyType`: an identity `tid`, its method resolution order
  `mro` (list of tids, itself first), its class namespace, and whether its
  `__init__` is distinct from `object.__init__`.
* The module-level state is `CreatorState`: the module globals that `create`
  registers into, the `class_replacers` registry (keyed by the tid of the
  class to be replaced), and the next fresh type identity.
-/

namespace DeapCreator

/-- Identity of a Python heap object: what the `is` operator compares. -/
abbrev ObjId := Nat

/-- A Python attribute value as the creator module distinguishes them:
an immutable primitive datum, a reference to a heap object with identity,
or a zero-argument callable (anything with `__call__`).  The callable is
given the allocation counter and returns the produced value and the new
counter. -/
inductive PyVal : Type where
  | prim (k : Int) : PyVal
  | str (s : String) : PyVal
  | obj (id : ObjId) : PyVal
  | callable (f : Nat → PyVal × Nat) : PyVal

/-- The test `hasattr(obj, "__call__")` used by `create` to partition the
keyword arguments. -/
def hasCall : PyVal → Bool
  | .callable _ => true
  | _ => false

/-- Calling a value with no arguments: succeeds exactly on callables,
threading the allocation counter; calling anything else is a `TypeError`. -/
def callVal : PyVal → Nat → Option (PyVal × Nat)
  | .callable f, n => some (f n)
  | _, _ => none

/-- First-match lookup in an association list (Python dict read `d[k]`,
`none` standing for `KeyError`; also the membership test `k in d`). -/
def dictLookup {κ α : Type} [DecidableEq κ] (d : List (κ × α)) (k : κ) :
    Option α :=
  (d.find? (fun p => p.1 = k)).map (fun p => p.2)

/-- Python dict assignment `d[k] = v`: the old binding for `k` is gone and the
new one is found first. -/
def dictSet {κ α : Type} [DecidableEq κ] (d : List (κ × α)) (k : κ) (v : α) :
    List (κ × α) :=
  (k, v) :: d.filter (fun p => p.1 ≠ k)

/-- Python `dst.update(src)`: assign every binding of `src` into `dst`,
in order. -/
def dictUpdate {κ α : Type} [DecidableEq κ] (dst src : List (κ × α)) :
    List (κ × α) :=
  src.foldl (fun acc p => dictSet acc p.1 p.2) dst

/-- An instance while `__init__` runs: its `__dict__` and the trace of calls
made to the base type's `__init__`, each with its positional and keyword
arguments. -/
structure Inst : Type where
  attrs : List (String × PyVal)
  baseInitCalls : List (List PyVal × List (String × PyVal))

/-- A freshly allocated instance: empty `__dict__`, no base-init call yet. -/
def Inst.empty : Inst := ⟨[], []⟩

/-- `setattr(self, k, v)`. -/
def setattr (self : Inst) (k : String) (v : PyVal) : Inst :=
  { self with attrs := dictSet self.attrs k v }

/-- Invoking `base.__init__(self, *args, **kwargs)`: recorded on the trace. -/
def callBaseInit (self : Inst) (args : List PyVal)
    (kwargs : List (String × PyVal)) : Inst :=
  { self with baseInitCalls := self.baseInitCalls ++ [(args, kwargs)] }

/-- A Python type object: identity, method resolution order (tids, itself
first), class namespace, and whether its `__init__` is distinct from
`object.__init__`. -/
structure PyType : Type where
  tid : Nat
  mro : List Nat
  clsDict : List (String × PyVal)
  hasCustomInit : Bool

/-- `issubclass(t, s)` in the embedding: `s` appears in `t`'s mro. -/
def isSubclass (t s : PyType) : Bool := s.tid ∈ t.mro

/-- `object`. -/
def objectType : PyType := ⟨0, [0], [], false⟩

/-- `list`: its `__init__` is distinct from `object.__init__`. -/
def listType : PyType := ⟨1, [1, 0], [], true⟩

/-- `array.array`: constructed through `__new__`; its `__init__` is inherited
from `object`. -/
def arrayArrayType : PyType := ⟨2, [2, 0], [], false⟩

/-- The replacement class `_array(array.array)` of creator.py (as a type
object; its instance behaviour is modelled below by `arrayNew`,
`arrayDeepcopy` and `arrayReduce`).  It defines no `__init__` of its own. -/
def arrType : PyType := ⟨3, [3, 2, 0], [], false⟩

/-- A type synthesized by `create`: the type object built by
`type(name, (base,), dict_cls)`, together with the data closed over by the
installed initializer `initType` — the `dict_inst` of instance-factory
attributes and whether the (possibly replaced) base's `__init__` is distinct
from `object.__init__`. -/
structure SynthType : Type where
  ty : PyType
  dictInst : List (String × PyVal)
  baseHasCustomInit : Bool

/-- The module-level state of creator.py: the module globals written by
`create` (name to synthesized type), the `class_replacers` registry keyed by
the tid of the class to replace, and the supply of fresh type identities. -/
structure CreatorState : Type where
  globalsMap : List (String × SynthType)
  class_replacers : List (Nat × PyType)
  nextTid : Nat

/-- Lines 126-128 of creator.py:
`if base in class_replacers: base = class_replacers[base]`.
Membership and indexing of the registry dict go by the type's identity. -/
def replaceBase (replacers : List (Nat × PyType)) (base : PyType) : PyType :=
  match dictLookup replacers base.tid with
  | some rep => rep
  | none => base

/-- The body of `create(name, base, **kargs)` up to the construction of the
new type object: partition `kargs` by `hasattr(obj, "__call__")` into
`dict_inst` and `dict_cls`, replace the base through `class_replacers`, and
build `type(name, (base,), dict_cls)` with `initType` installed (so the new
type's `__init__` is distinct from `object.__init__`). -/
def createdType (st : CreatorState) (base : PyType)
    (kargs : List (String × PyVal)) : SynthType :=
  let dict_inst := kargs.filter (fun p => hasCall p.2)
  let dict_cls := kargs.filter (fun p => !hasCall p.2)
  let base := replaceBase st.class_replacers base
  { ty := { tid := st.nextTid, mro := st.nextTid :: base.mro,
            clsDict := dict_cls, hasCustomInit := true },
    dictInst := dict_inst,
    baseHasCustomInit := base.hasCustomInit }

/-- `create(name, base, **kargs)` as a transformer of the module state: build
the new type and bind it under `name` in the module globals
(`globals()[name] = objtype`). -/
def create (st : CreatorState) (name : String) (base : PyType)
    (kargs : List (String × PyVal)) : CreatorState :=
  { st with globalsMap := dictSet st.globalsMap name (createdType st base kargs),
            nextTid := st.nextTid + 1 }

/-- The loop of `initType`:
`for obj_name, obj in dict_inst.iteritems(): setattr(self, obj_name, obj())`.
Fails (as Python would with a `TypeError`) if some entry is not callable. -/
def setFactoryAttrs : List (String × PyVal) → Inst → Nat → Option (Inst × Nat)
  | [], self, n => some (self, n)
  | (nm, o) :: rest, self, n =>
    match callVal o n with
    | some (v, n₁) => setFactoryAttrs rest (setattr self nm v) n₁
    | none => none

/-- Lines 135-144 of creator.py, the initializer installed on every
synthesized type: set each instance-factory attribute to the result of calling
its producer with no arguments, then call
`base.__init__(self, *args, **kargs)` when `base.__init__` is distinct from
`object.__init__`, else `base.__init__(self)`. -/
def initType (dict_inst : List (String × PyVal)) (baseHasCustomInit : Bool)
    (self : Inst) (args : List PyVal) (kwargs : List (String × PyVal))
    (n : Nat) : Option (Inst × Nat) :=
  match setFactoryAttrs dict_inst self n with
  | none => none
  | some (self₁, n₁) =>
    if baseHasCustomInit then some (callBaseInit self₁ args kwargs, n₁)
    else some (callBaseInit self₁ [] [], n₁)

/-- Constructing an instance of a synthesized type: run the installed
initializer on a freshly allocated instance. -/
def newInstance (t : SynthType) (args : List PyVal)
    (kwargs : List (String × PyVal)) (n : Nat) : Option (Inst × Nat) :=
  initType t.dictInst t.baseHasCustomInit Inst.empty args kwargs n

/-- Attribute read on an instance of a synthesized type: the instance
`__dict__` first, then the class namespace. -/
def instGetattr (t : SynthType) (self : Inst) (nm : String) : Option PyVal :=
  match dictLookup self.attrs nm with
  | some v => some v
  | none => dictLookup t.ty.clsDict nm

/-- The registry as creator.py populates it when the optional numpy
dependency is absent: `class_replacers[array.array] = _array`. -/
def builtinReplacers : List (Nat × PyType) := [(arrayArrayType.tid, arrType)]

/-- The module state right after import: empty globals, the built-in
registry, and a supply of fresh type identities above the built-in tids. -/
def initialState : CreatorState :=
  { globalsMap := [], class_replacers := builtinReplacers, nextTid := 10 }

/-! ### The `_array` replacement class

An instance of `_array` (or of a subclass) is its element buffer — a sequence
of numbers whose representation is fixed by the class attribute `typecode` —
together with its `__dict__`.  Elements are modelled as integers; the
typecode is carried so that `cls.typecode` in `__new__` and `self.__class__`
in `__deepcopy__`/`__reduce__` are visible in the model. -/

/-- An instance of the `_array` replacement class: the class's fixed
`typecode`, the element buffer, and the instance `__dict__`. -/
structure ArrayInst : Type where
  typecode : Char
  elems : List Int
  attrdict : List (String × PyVal)

/-- `_array.__new__(cls, seq=())`, which runs
`array.array.__new__(cls, cls.typecode, seq)`: a new instance holding the
values of `seq` in order, with an empty `__dict__`.  The Python parameter
`seq` defaults to the empty tuple; `arrayNewDefault` below is the
zero-argument call. -/
def arrayNew (typecode : Char) (seq : List Int) : ArrayInst :=
  { typecode := typecode, elems := seq, attrdict := [] }

/-- `_array.__new__(cls)` with `seq` left to its default `()`. -/
def arrayNewDefault (typecode : Char) : ArrayInst := arrayNew typecode []

/-- `copy.deepcopy` of one attribute value, threading the allocator:
primitives are immutable, a heap object is copied into a fresh object, a
function is atomic for `copy` (the same object is returned). -/
def deepcopyVal : PyVal → Nat → PyVal × Nat
  | .prim k, n => (.prim k, n)
  | .str s, n => (.str s, n)
  | .obj _, n => (.obj n, n + 1)
  | .callable f, n => (.callable f, n)

/-- `copy.deepcopy(self.__dict__, memo)`: a new dict with every value
deep-copied, keys and order preserved. -/
def deepcopyDict : List (String × PyVal) → Nat → List (String × PyVal) × Nat
  | [], n => ([], n)
  | (k, v) :: rest, n =>
    let p := deepcopyVal v n
    let q := deepcopyDict rest p.2
    ((k, p.1) :: q.1, q.2)

/-- Lines 79-87 of creator.py, `_array.__deepcopy__(self, memo)`:
`copy_ = cls.__new__(cls, self)` (the instance itself is the sequence
argument, so the elements are copied), then
`copy_.__dict__.update(copy.deepcopy(self.__dict__, memo))`. -/
def arrayDeepcopy (self : ArrayInst) (n : Nat) : ArrayInst × Nat :=
  let copy_ := arrayNew self.typecode self.elems
  let d := deepcopyDict self.attrdict n
  ({ copy_ with attrdict := dictUpdate copy_.attrdict d.1 }, d.2)

/-- Lines 89-90 of creator.py, `_array.__reduce__`:
`return (self.__class__, (list(self),), self.__dict__)` — the class, a
one-element argument tuple holding the list of the elements, and the
instance `__dict__`. -/
def arrayReduce (self : ArrayInst) :
    Char × List (List Int) × List (String × PyVal) :=
  (self.typecode, [self.elems], self.attrdict)

/-- Applying the class (through `_array.__new__`) to an argument tuple, as
unpickling does with the first two components of `__reduce__`: zero
arguments use the default empty sequence, one argument is the sequence, more
arguments are a `TypeError`. -/
def arrayApply (tc : Char) (args : List (List Int)) : Option ArrayInst :=
  match args with
  | [] => some (arrayNewDefault tc)
  | [seq] => some (arrayNew tc seq)
  | _ => none

/-- The unpickling protocol on a `__reduce__` triple: call the class on the
argument tuple, then restore the state with `inst.__dict__.update(state)`. -/
def reconstructFromReduce
    (r : Char × List (List Int) × List (String × PyVal)) : Option ArrayInst :=
  (arrayApply r.1 r.2.1).map
    (fun inst => { inst with attrdict := dictUpdate inst.attrdict r.2.2 })

/-! ### Auxiliary notions used by the claim statements -/

/-- A zero-argument callable that allocates: every call returns a heap object
that did not exist before the call (its id is at least the incoming counter
and below the outgoing one).  This is how a class used as a producer — e.g.
`bar=dict` in the docstring example — behaves. -/
def FreshFun (f : Nat → PyVal × Nat) : Prop :=
  ∀ n, ∃ i m, f n = (PyVal.obj i, m) ∧ n ≤ i ∧ i < m

/-- The registry invariant satisfied by the registry creator.py ships:
every replacement class is a subclass of the class it replaces
(`_array` subclasses `array.array`, `_numpy_array` subclasses
`numpy.ndarray`). -/
def ReplacersRespectSubclass (st : CreatorState) : Prop :=
  ∀ p ∈ st.class_replacers, p.1 ∈ p.2.mro

/-- A callable — e.g. `lambda: shared` — that returns the same
already-existing heap object (id 0) on every call, allocating nothing. -/
def sharedProducer : PyVal := PyVal.callable (fun n => (PyVal.obj 0, n))

/-- A callable that allocates a fresh heap object on every call. -/
def freshProducer : PyVal := PyVal.callable (fun n => (PyVal.obj n, n + 1))

/-- `create("Foo", list, bar=<sharedProducer>)` on the freshly imported
module. -/
def sharedFooType : SynthType :=
  createdType initialState listType [("bar", sharedProducer)]

/-- The resolution of `cls.typecode` performed on line 77 of creator.py for a
type synthesized over `array.array`: when the class namespace declares
`typecode` as a one-character string, that character; otherwise `none` — the
name then resolves to no usable typecode (on a class with no such static
attribute it reaches `array.array`'s own `typecode` getset descriptor, which
is not a typecode string). -/
def clsTypecodeAttr (t : SynthType) : Option Char :=
  match dictLookup t.ty.clsDict "typecode" with
  | some (PyVal.str s) =>
    match s.toList with
    | [c] => some c
    | _ => none
  | _ => none

/-- `array.array.__new__(cls, cls.typecode, seq)` (line 77 of creator.py)
for a class whose `typecode` attribute resolved as `typecodeAttr`: succeeds
with the declared one-character typecode, and raises `TypeError` (`none`)
when the class declares no usable `typecode` attribute. -/
def arrayNewOnClass (typecodeAttr : Option Char) (seq : List Int) :
    Option ArrayInst :=
  match typecodeAttr with
  | some tc => some (arrayNew tc seq)
  | none => none

/-- `A()` for a type `A` synthesized over `array.array`: Python first runs
the inherited `_array.__new__(A)` — with the sequence argument left to its
default empty tuple and `cls.typecode` resolved on `A` — and only then the
installed initializer with no arguments.  The result pairs the element
buffer made by `__new__` with the instance attributes and allocator state
left by the initializer; `none` is the construction raising. -/
def newArrayInstance (t : SynthType) (n : Nat) :
    Option (ArrayInst × Inst × Nat) :=
  match arrayNewOnClass (clsTypecodeAttr t) [] with
  | none => none
  | some arr =>
    match initType t.dictInst t.baseHasCustomInit Inst.empty [] [] n with
    | none => none
    | some (self, n') => some (arr, self, n')

/-- Construct two instances of a synthesized type one after the other (the
second starts from the allocator state the first left behind) and return the
pair. -/
def twoInstances (t : SynthType) : Option (Inst × Inst) :=
  match newInstance t [] [] 0 with
  | some (i₁, n₁) =>
    match newInstance t [] [] n₁ with
    | some (i₂, _) => some (i₁, i₂)
    | none => none
  | none => none

/-! ### Association-list lemmas -/

theorem dictLookup_nil {κ α : Type} [DecidableEq κ] (k : κ) :
    dictLookup ([] : List (κ × α)) k = none := rfl

theorem dictLookup_cons {κ α : Type} [DecidableEq κ] (k₀ : κ) (v₀ : α)
    (d : List (κ × α)) (k : κ) :
    dictLookup ((k₀, v₀) :: d) k
      = if k₀ = k then some v₀ else dictLookup d k := by
  by_cases h : k₀ = k <;> simp [dictLookup, List.find?_cons, h]

theorem dictLookup_dictSet_self {κ α : Type} [DecidableEq κ]
    (d : List (κ × α)) (k : κ) (v : α) :
    dictLookup (dictSet d k v) k = some v := by
  simp [dictSet, dictLookup_cons]

theorem dictLookup_eq_none_of_notmem {κ α : Type} [DecidableEq κ]
    (d : List (κ × α)) (k : κ) (h : k ∉ d.map Prod.fst) :
    dictLookup d k = none := by
  induction d with
  | nil => rfl
  | cons hd tl ih =>
    simp only [List.map_cons, List.mem_cons] at h
    push_neg at h
    obtain ⟨h₁, h₂⟩ := h
    rw [show hd = (hd.1, hd.2) from rfl, dictLookup_cons,
      if_neg (Ne.symm h₁), ih h₂]

theorem dictLookup_of_mem {κ α : Type} [DecidableEq κ]
    (d : List (κ × α)) (k : κ) (v : α)
    (hnd : (d.map Prod.fst).Nodup) (h : (k, v) ∈ d) :
    dictLookup d k = some v := by
  induction d with
  | nil => simp at h
  | cons hd tl ih =>
    simp only [List.map_cons, List.nodup_cons] at hnd
    rcases List.mem_cons.mp h with h | h
    · rw [← h, dictLookup_cons, if_pos rfl]
    · have hk : hd.1 ≠ k := by
        intro hk
        exact hnd.1 (hk ▸ List.mem_map_of_mem Prod.fst h)
      rw [show hd = (hd.1, hd.2) from rfl, dictLookup_cons, if_neg hk,
        ih hnd.2 h]

theorem find?_filter_of_imp {α : Type} (d : List α) (p q : α → Bool)
    (h : ∀ x, p x = true → q x = true) :
    (d.filter q).find? p = d.find? p := by
  induction d with
  | nil => rfl
  | cons hd tl ih =>
    by_cases hq : q hd = true
    · by_cases hp : p hd = true
      · simp [List.filter_cons, hq, List.find?_cons, hp]
      · simp [List.filter_cons, hq, List.find?_cons, hp, ih]
    · have hp : ¬p hd = true := fun hph => hq (h hd hph)
      simp [List.filter_cons, hq, List.find?_cons, hp, ih]

theorem dictLookup_filter_other {κ α : Type} [DecidableEq κ]
    (d : List (κ × α)) (k k' : κ) (h : k' ≠ k) :
    dictLookup (d.filter (fun p => p.1 ≠ k)) k' = dictLookup d k' := by
  induction d with
  | nil => rfl
  | cons hd tl ih =>
    by_cases hq : hd.1 = k
    · have hne : hd.1 ≠ k' := by
        rw [hq]
        exact fun hh => h hh.symm
      rw [List.filter_cons_of_neg (by simp [hq]), ih,
        show hd = (hd.1, hd.2) from rfl, dictLookup_cons, if_neg hne]
    · rw [List.filter_cons_of_pos (by simp [hq]),
        show hd = (hd.1, hd.2) from rfl, dictLookup_cons, dictLookup_cons, ih]

theorem dictLookup_dictSet_ne {κ α : Type} [DecidableEq κ]
    (d : List (κ × α)) (k k' : κ) (v : α) (h : k' ≠ k) :
    dictLookup (dictSet d k v) k' = dictLookup d k' := by
  unfold dictSet
  rw [dictLookup_cons, if_neg (Ne.symm h), dictLookup_filter_other d k k' h]

theorem filter_key_dictSet {κ α : Type} [DecidableEq κ]
    (d : List (κ × α)) (k : κ) (v : α) :
    (dictSet d k v).filter (fun p => p.1 = k) = [(k, v)] := by
  have hnil : ∀ e : List (κ × α),
      (e.filter (fun p => p.1 ≠ k)).filter (fun p => p.1 = k) = [] := by
    intro e
    induction e with
    | nil => rfl
    | cons hd tl ih =>
      by_cases hq : hd.1 = k
      · simp [List.filter_cons, hq, ih]
      · simp [List.filter_cons, hq, ih]
  simp [dictSet, List.filter_cons, hnil]

theorem dictLookup_dictUpdate {κ α : Type} [DecidableEq κ]
    (s : List (κ × α)) (hnd : (s.map Prod.fst).Nodup) :
    ∀ (d : List (κ × α)) (k : κ),
      dictLookup (dictUpdate d s) k = (dictLookup s k).or (dictLookup d k) := by
  induction s with
  | nil => intro d k; rfl
  | cons hd tl ih =>
    intro d k
    simp only [List.map_cons, List.nodup_cons] at hnd
    have hstep : dictUpdate d (hd :: tl) = dictUpdate (dictSet d hd.1 hd.2) tl := rfl
    rw [hstep, ih hnd.2, show hd = (hd.1, hd.2) from rfl, dictLookup_cons]
    by_cases hk : hd.1 = k
    · subst hk
      rw [if_pos rfl, dictLookup_eq_none_of_notmem tl hd.1 hnd.1,
        dictLookup_dictSet_self, Option.none_or]
      rfl
    · rw [if_neg hk, dictLookup_dictSet_ne d hd.1 k hd.2 (fun hkk => hk hkk.symm)]

theorem dictLookup_dictUpdate_nil {κ α : Type} [DecidableEq κ]
    (s : List (κ × α)) (hnd : (s.map Prod.fst).Nodup) (k : κ) :
    dictLookup (dictUpdate [] s) k = dictLookup s k := by
  rw [dictLookup_dictUpdate s hnd [] k, dictLookup_nil, Option.or_none]

/-! ### Unfolding facts about `createdType` -/

theorem createdType_dictInst (st : CreatorState) (base : PyType)
    (kargs : List (String × PyVal)) :
    (createdType st base kargs).dictInst
      = kargs.filter (fun p => hasCall p.2) := rfl

theorem createdType_clsDict (st : CreatorState) (base : PyType)
    (kargs : List (String × PyVal)) :
    (createdType st base kargs).ty.clsDict
      = kargs.filter (fun p => !hasCall p.2) := rfl

theorem createdType_baseHasCustomInit (st : CreatorState) (base : PyType)
    (kargs : List (String × PyVal)) :
    (createdType st base kargs).baseHasCustomInit
      = (replaceBase st.class_replacers base).hasCustomInit := rfl

theorem createdType_mro (st : CreatorState) (base : PyType)
    (kargs : List (String × PyVal)) :
    (createdType st base kargs).ty.mro
      = st.nextTid :: (replaceBase st.class_replacers base).mro := rfl

theorem nodup_keys_filter {q : String × PyVal → Bool}
    (kargs : List (String × PyVal)) (hnd : (kargs.map Prod.fst).Nodup) :
    ((kargs.filter q).map Prod.fst).Nodup :=
  List.Nodup.sublist ((List.filter_sublist kargs).map Prod.fst) hnd

/-! ### Lemmas about the installed initializer -/

theorem setFactoryAttrs_baseInitCalls (l : List (String × PyVal)) :
    ∀ (self : Inst) (n : Nat) (self' : Inst) (n' : Nat),
      setFactoryAttrs l self n = some (self', n') →
      self'.baseInitCalls = self.baseInitCalls := by
  induction l with
  | nil =>
    intro self n self' n' h
    simp only [setFactoryAttrs, Option.some.injEq, Prod.mk.injEq] at h
    rw [← h.1]
  | cons hd tl ih =>
    intro self n self' n' h
    obtain ⟨k, o⟩ := hd
    simp only [setFactoryAttrs] at h
    cases hc : callVal o n with
    | none => rw [hc] at h; simp at h
    | some p =>
      obtain ⟨v, n₁⟩ := p
      rw [hc] at h
      exact ih (setattr self k v) n₁ self' n' h

theorem setFactoryAttrs_lookup_notmem (l : List (String × PyVal)) :
    ∀ (self : Inst) (n : Nat) (self' : Inst) (n' : Nat),
      setFactoryAttrs l self n = some (self', n') →
      ∀ nm, nm ∉ l.map Prod.fst →
        dictLookup self'.attrs nm = dictLookup self.attrs nm := by
  induction l with
  | nil =>
    intro self n self' n' h nm _
    simp only [setFactoryAttrs, Option.some.injEq, Prod.mk.injEq] at h
    rw [← h.1]
  | cons hd tl ih =>
    intro self n self' n' h nm hnm
    obtain ⟨k, o⟩ := hd
    simp only [List.map_cons, List.mem_cons] at hnm
    push_neg at hnm
    simp only [setFactoryAttrs] at h
    cases hc : callVal o n with
    | none => rw [hc] at h; simp at h
    | some p =>
      obtain ⟨v, n₁⟩ := p
      rw [hc] at h
      rw [ih _ _ _ _ h nm hnm.2]
      exact dictLookup_dictSet_ne self.attrs k nm v hnm.1

theorem setFactoryAttrs_isSome (l : List (String × PyVal))
    (hc : ∀ p ∈ l, hasCall p.2 = true) :
    ∀ (self : Inst) (n : Nat), ∃ r, setFactoryAttrs l self n = some r := by
  induction l with
  | nil => intro self n; exact ⟨(self, n), rfl⟩
  | cons hd tl ih =>
    intro self n
    obtain ⟨k, o⟩ := hd
    have hco : hasCall o = true := hc (k, o) (List.mem_cons_self _ _)
    obtain ⟨f, hf⟩ : ∃ f, o = PyVal.callable f := by
      cases o with
      | prim _ => simp [hasCall] at hco
      | str _ => simp [hasCall] at hco
      | obj _ => simp [hasCall] at hco
      | callable f => exact ⟨f, rfl⟩
    subst hf
    obtain ⟨r, hr⟩ :=
      ih (fun p hp => hc p (List.mem_cons_of_mem _ hp))
        (setattr self k (f n).1) (f n).2
    exact ⟨r, hr⟩

theorem setFactoryAttrs_lookup_mem (l : List (String × PyVal))
    (hnd : (l.map Prod.fst).Nodup) :
    ∀ (self : Inst) (n : Nat) (self' : Inst) (n' : Nat),
      setFactoryAttrs l self n = some (self', n') →
      ∀ nm v, (nm, v) ∈ l →
        ∃ c r, callVal v c = some r ∧ dictLookup self'.attrs nm = some r.1 := by
  induction l with
  | nil => intro self n self' n' h nm v hmem; simp at hmem
  | cons hd tl ih =>
    intro self n self' n' h nm v hmem
    obtain ⟨k, o⟩ := hd
    simp only [List.map_cons, List.nodup_cons] at hnd
    simp only [setFactoryAttrs] at h
    cases hc : callVal o n with
    | none => rw [hc] at h; simp at h
    | some p =>
      obtain ⟨v₁, n₁⟩ := p
      rw [hc] at h
      rcases List.mem_cons.mp hmem with heq | hmem'
      · injection heq with h₁ h₂
        subst h₁
        subst h₂
        refine ⟨n, (v₁, n₁), hc, ?_⟩
        rw [setFactoryAttrs_lookup_notmem tl _ _ _ _ h nm hnd.1]
        exact dictLookup_dictSet_self self.attrs nm v₁
      · exact ih hnd.2 _ _ _ _ h nm v hmem'

theorem setFactoryAttrs_fresh (l : List (String × PyVal))
    (hnd : (l.map Prod.fst).Nodup)
    (hf : ∀ p ∈ l, ∃ f, p.2 = PyVal.callable f ∧ FreshFun f) :
    ∀ (self : Inst) (n : Nat),
      ∃ self' n', setFactoryAttrs l self n = some (self', n') ∧ n ≤ n' ∧
        ∀ p ∈ l, ∃ i, dictLookup self'.attrs p.1 = some (PyVal.obj i) ∧
          n ≤ i ∧ i < n' := by
  induction l with
  | nil =>
    intro self n
    exact ⟨self, n, rfl, Nat.le_refl n, by simp⟩
  | cons hd tl ih =>
    intro self n
    obtain ⟨k, o⟩ := hd
    simp only [List.map_cons, List.nodup_cons] at hnd
    obtain ⟨f, ho, hff⟩ := hf (k, o) (List.mem_cons_self _ _)
    simp only at ho
    subst ho
    obtain ⟨i, m, hfn, hni, him⟩ := hff n
    obtain ⟨self', n', hsf, hmn', hall⟩ :=
      ih hnd.2 (fun p hp => hf p (List.mem_cons_of_mem _ hp))
        (setattr self k (PyVal.obj i)) m
    have hrun : setFactoryAttrs ((k, PyVal.callable f) :: tl) self n
        = some (self', n') := by
      simp only [setFactoryAttrs, callVal, hfn]
      exact hsf
    refine ⟨self', n', hrun,
      Nat.le_trans (Nat.le_of_lt (Nat.lt_of_le_of_lt hni him)) hmn', ?_⟩
    intro p hp
    rcases List.mem_cons.mp hp with heq | hmem'
    · subst heq
      refine ⟨i, ?_, hni, Nat.lt_of_lt_of_le him hmn'⟩
      rw [setFactoryAttrs_lookup_notmem tl _ _ _ _ hsf k hnd.1]
      exact dictLookup_dictSet_self self.attrs k (PyVal.obj i)
    · obtain ⟨j, hj, hmj, hjn'⟩ := hall p hmem'
      exact ⟨j, hj,
        Nat.le_trans (Nat.le_of_lt (Nat.lt_of_le_of_lt hni him)) hmj, hjn'⟩

theorem initType_eq (dict_inst : List (String × PyVal)) (b : Bool)
    (self : Inst) (args : List PyVal) (kwargs : List (String × PyVal))
    (n : Nat) (self₁ : Inst) (n₁ : Nat)
    (h : setFactoryAttrs dict_inst self n = some (self₁, n₁)) :
    initType dict_inst b self args kwargs n
      = some (callBaseInit self₁ (if b then args else [])
          (if b then kwargs else []), n₁) := by
  unfold initType
  rw [h]
  cases b <;> simp

theorem instGetattr_of_attrs_none (t : SynthType) (self : Inst) (nm : String)
    (h : dictLookup self.attrs nm = none) :
    instGetattr t self nm = dictLookup t.ty.clsDict nm := by
  unfold instGetattr
  rw [h]

theorem deepcopyDict_keys (d : List (String × PyVal)) :
    ∀ n, (deepcopyDict d n).1.map Prod.fst = d.map Prod.fst := by
  induction d with
  | nil => intro n; rfl
  | cons hd tl ih =>
    intro n
    obtain ⟨k, v⟩ := hd
    simp only [deepcopyDict, List.map_cons]
    rw [ih]

theorem dictLookup_mem_of_eq_some {κ α : Type} [DecidableEq κ]
    (d : List (κ × α)) (k : κ) (v : α) (h : dictLookup d k = some v) :
    (k, v) ∈ d := by
  unfold dictLookup at h
  cases hf : d.find? (fun p => p.1 = k) with
  | none => rw [hf] at h; simp at h
  | some p =>
    rw [hf] at h
    simp only [Option.map_some', Option.some.injEq] at h
    have hp := List.find?_some hf
    have hmem := List.mem_of_find?_eq_some hf
    simp only [decide_eq_true_eq] at hp
    have : p = (k, v) := Prod.ext hp h
    rwa [this] at hmem

/-! ### The claims -/

/-- Claim C1: for every type synthesized by `create`, the installed
initializer, invoked on a new instance with any positional and keyword
arguments, succeeds and (a) assigns to the instance, for each
instance-factory attribute, the result of calling that attribute's producer
with no arguments — and assigns no other instance attribute — and (b) calls
the (possibly replaced) base type's initializer exactly once: with all of the
given constructor arguments when that initializer is distinct from `object`'s
default initializer, and with no arguments (discarding the given arguments)
otherwise. -/
theorem create_initializer_spec (st : CreatorState) (base : PyType)
    (kargs : List (String × PyVal)) (hnd : (kargs.map Prod.fst).Nodup)
    (args : List PyVal) (kwargs : List (String × PyVal)) (n : Nat) :
    ∃ self' n',
      newInstance (createdType st base kargs) args kwargs n = some (self', n') ∧
      (∀ nm v, (nm, v) ∈ (createdType st base kargs).dictInst →
        ∃ c r, callVal v c = some r ∧ dictLookup self'.attrs nm = some r.1) ∧
      (∀ nm, nm ∉ (createdType st base kargs).dictInst.map Prod.fst →
        dictLookup self'.attrs nm = none) ∧
      self'.baseInitCalls =
        [if (replaceBase st.class_replacers base).hasCustomInit
          then (args, kwargs) else ([], [])] := by
  have hc : ∀ p ∈ (createdType st base kargs).dictInst, hasCall p.2 = true := by
    rw [createdType_dictInst]
    intro p hp
    exact (List.mem_filter.mp hp).2
  have hnd' : ((createdType st base kargs).dictInst.map Prod.fst).Nodup := by
    rw [createdType_dictInst]
    exact nodup_keys_filter kargs hnd
  obtain ⟨⟨self₁, n₁⟩, hsf⟩ := setFactoryAttrs_isSome _ hc Inst.empty n
  have hinit := initType_eq _ (createdType st base kargs).baseHasCustomInit
    Inst.empty args kwargs n self₁ n₁ hsf
  refine ⟨_, n₁, hinit, ?_, ?_, ?_⟩
  · intro nm v hmem
    exact setFactoryAttrs_lookup_mem _ hnd' _ _ _ _ hsf nm v hmem
  · intro nm hnm
    show dictLookup self₁.attrs nm = none
    rw [setFactoryAttrs_lookup_notmem _ _ _ _ _ hsf nm hnm]
    rfl
  · show self₁.baseInitCalls ++ [_] = _
    rw [setFactoryAttrs_baseInitCalls _ _ _ _ _ hsf]
    rw [show (createdType st base kargs).baseHasCustomInit
      = (replaceBase st.class_replacers base).hasCustomInit from rfl]
    cases (replaceBase st.class_replacers base).hasCustomInit <;> simp [Inst.empty]

/-- Witness for C1: `create("Foo", list, spam=1, bar=<allocating producer>)`
on the freshly imported module, then constructing an instance with the
positional argument 7. -/
theorem create_initializer_spec_witness :
    (([("spam", PyVal.prim 1), ("bar", freshProducer)].map
        (Prod.fst : String × PyVal → String)).Nodup) ∧
    (∃ self' n',
      newInstance (createdType initialState listType
          [("spam", PyVal.prim 1), ("bar", freshProducer)])
          [PyVal.prim 7] [] 0 = some (self', n') ∧
      (∀ nm v, (nm, v) ∈ (createdType initialState listType
          [("spam", PyVal.prim 1), ("bar", freshProducer)]).dictInst →
        ∃ c r, callVal v c = some r ∧ dictLookup self'.attrs nm = some r.1) ∧
      (∀ nm, nm ∉ (createdType initialState listType
          [("spam", PyVal.prim 1), ("bar", freshProducer)]).dictInst.map
            Prod.fst →
        dictLookup self'.attrs nm = none) ∧
      self'.baseInitCalls =
        [if (replaceBase initialState.class_replacers listType).hasCustomInit
          then ([PyVal.prim 7], []) else ([], [])]) :=
  ⟨by simp, create_initializer_spec initialState listType
    [("spam", PyVal.prim 1), ("bar", freshProducer)] (by simp)
    [PyVal.prim 7] [] 0⟩

/-- Claim C2: `create` partitions its keyword attributes by the single test
`hasattr(value, "__call__")`: every callable value is recorded as an
instance-factory attribute and is not placed in the class namespace, every
non-callable value is placed in the class namespace and is not recorded as a
factory, and both groups contain only keyword attributes — so each keyword
attribute lands in exactly one group. -/
theorem create_partition_spec (st : CreatorState) (base : PyType)
    (kargs : List (String × PyVal)) :
    (∀ p ∈ kargs,
      (hasCall p.2 = true →
        p ∈ (createdType st base kargs).dictInst ∧
        p ∉ (createdType st base kargs).ty.clsDict) ∧
      (hasCall p.2 = false →
        p ∈ (createdType st base kargs).ty.clsDict ∧
        p ∉ (createdType st base kargs).dictInst)) ∧
    (∀ p ∈ (createdType st base kargs).dictInst,
      p ∈ kargs ∧ hasCall p.2 = true) ∧
    (∀ p ∈ (createdType st base kargs).ty.clsDict,
      p ∈ kargs ∧ hasCall p.2 = false) := by
  rw [createdType_dictInst, createdType_clsDict]
  refine ⟨?_, ?_, ?_⟩
  · intro p hp
    constructor
    · intro hcall
      refine ⟨List.mem_filter.mpr ⟨hp, hcall⟩, fun hmem => ?_⟩
      have := (List.mem_filter.mp hmem).2
      simp [hcall] at this
    · intro hncall
      refine ⟨List.mem_filter.mpr ⟨hp, by simp [hncall]⟩, fun hmem => ?_⟩
      have := (List.mem_filter.mp hmem).2
      simp [hncall] at this
  · intro p hp
    exact ⟨(List.mem_filter.mp hp).1, (List.mem_filter.mp hp).2⟩
  · intro p hp
    refine ⟨(List.mem_filter.mp hp).1, ?_⟩
    have := (List.mem_filter.mp hp).2
    simpa using this

/-- Witness for C2 on a two-attribute call mixing a callable and a
non-callable value. -/
theorem create_partition_spec_witness :
    ("spam", PyVal.prim 1) ∈ (createdType initialState listType
      [("spam", PyVal.prim 1), ("bar", freshProducer)]).ty.clsDict ∧
    ("bar", freshProducer) ∈ (createdType initialState listType
      [("spam", PyVal.prim 1), ("bar", freshProducer)]).dictInst :=
  ⟨(((create_partition_spec initialState listType
      [("spam", PyVal.prim 1), ("bar", freshProducer)]).1
      ("spam", PyVal.prim 1) (by simp)).2 rfl).1,
   (((create_partition_spec initialState listType
      [("spam", PyVal.prim 1), ("bar", freshProducer)]).1
      ("bar", freshProducer) (by simp)).1 rfl).1⟩

/-- Claim C3: when every keyword attribute is non-callable, the synthesized
type is a subtype of the base passed to `create` (also through a registry
replacement, since every shipped replacement subclasses the class it
replaces), and a freshly constructed instance exposes each keyword attribute
with exactly the value given, through the class namespace. -/
theorem create_static_spec (st : CreatorState) (base : PyType)
    (kargs : List (String × PyVal))
    (hrep : ReplacersRespectSubclass st) (hbase : base.tid ∈ base.mro)
    (hnc : ∀ p ∈ kargs, hasCall p.2 = false)
    (hnd : (kargs.map Prod.fst).Nodup)
    (args : List PyVal) (kwargs : List (String × PyVal)) (n : Nat) :
    isSubclass (createdType st base kargs).ty base = true ∧
    ∃ self' n',
      newInstance (createdType st base kargs) args kwargs n = some (self', n') ∧
      ∀ nm v, (nm, v) ∈ kargs →
        instGetattr (createdType st base kargs) self' nm = some v := by
  have hdi : (createdType st base kargs).dictInst = [] := by
    rw [createdType_dictInst]
    simp only [List.filter_eq_nil_iff]
    intro p hp
    simp [hnc p hp]
  have hcls : (createdType st base kargs).ty.clsDict = kargs := by
    rw [createdType_clsDict]
    apply List.filter_eq_self.mpr
    intro p hp
    simp [hnc p hp]
  constructor
  · simp only [isSubclass, createdType_mro, List.mem_cons, decide_eq_true_eq]
    right
    unfold replaceBase
    cases hf : dictLookup st.class_replacers base.tid with
    | none => exact hbase
    | some rep =>
      have hmem := dictLookup_mem_of_eq_some st.class_replacers base.tid rep hf
      exact hrep (base.tid, rep) hmem
  · have hsf : setFactoryAttrs (createdType st base kargs).dictInst
        Inst.empty n = some (Inst.empty, n) := by
      rw [hdi]
      rfl
    have hinit := initType_eq _ (createdType st base kargs).baseHasCustomInit
      Inst.empty args kwargs n Inst.empty n hsf
    refine ⟨_, n, hinit, ?_⟩
    intro nm v hmem
    rw [instGetattr_of_attrs_none _ _ _ (by rfl), hcls]
    exact dictLookup_of_mem kargs nm v hnd hmem

/-- Witness for C3: `create("Foo", list, spam=1)` then `Foo()`. -/
theorem create_static_spec_witness :
    isSubclass (createdType initialState listType
      [("spam", PyVal.prim 1)]).ty listType = true ∧
    ∃ self' n',
      newInstance (createdType initialState listType [("spam", PyVal.prim 1)])
        [] [] 0 = some (self', n') ∧
      ∀ nm v, (nm, v) ∈ [("spam", PyVal.prim 1)] →
        instGetattr (createdType initialState listType
          [("spam", PyVal.prim 1)]) self' nm = some v :=
  create_static_spec initialState listType [("spam", PyVal.prim 1)]
    (by intro p hp; simp [builtinReplacers, initialState] at hp; simp [hp, arrType, arrayArrayType])
    (by simp [listType]) (by intro p hp; simp at hp; simp [hp, hasCall])
    (by simp) [] [] 0

/-- Counterexample to claim C4 as stated: `create("Foo", list, bar=<lambda
returning a shared object>)` — a callable keyword attribute — yet two
instances constructed one after the other both hold the very same heap object
(id 0) under `bar`: the attribute values are the same shared object, not
independent ones.  The producer is a callable, so the claim's quantification
covers it, but nothing in `initType` makes its results independent. -/
theorem create_factory_shared_counterexample :
    (twoInstances sharedFooType).map (fun p =>
      (dictLookup p.1.attrs "bar", dictLookup p.2.attrs "bar"))
      = some (some (PyVal.obj 0), some (PyVal.obj 0)) := rfl

/-- Claim C4 (amended): for every call to `create` whose keyword attributes
include callable values, each instance-factory attribute of each constructed
instance is the result of a separate invocation of its producer — the
producer runs once per instance construction; in particular, when every
callable keyword attribute allocates a fresh object on each call (as a class
producer such as `dict` does), two instances constructed one after the other
hold distinct objects for every such attribute. -/
theorem create_factory_fresh_spec (st : CreatorState) (base : PyType)
    (kargs : List (String × PyVal)) (hnd : (kargs.map Prod.fst).Nodup)
    (hfr : ∀ p ∈ kargs, hasCall p.2 = true →
      ∃ f, p.2 = PyVal.callable f ∧ FreshFun f)
    (args₁ : List PyVal) (kwargs₁ : List (String × PyVal))
    (args₂ : List PyVal) (kwargs₂ : List (String × PyVal)) (n : Nat) :
    ∃ i₁ n₁ i₂ n₂,
      newInstance (createdType st base kargs) args₁ kwargs₁ n
        = some (i₁, n₁) ∧
      newInstance (createdType st base kargs) args₂ kwargs₂ n₁
        = some (i₂, n₂) ∧
      ∀ p ∈ (createdType st base kargs).dictInst,
        ∃ a b, dictLookup i₁.attrs p.1 = some (PyVal.obj a) ∧
          dictLookup i₂.attrs p.1 = some (PyVal.obj b) ∧ a ≠ b := by
  have hnd' : ((createdType st base kargs).dictInst.map Prod.fst).Nodup := by
    rw [createdType_dictInst]
    exact nodup_keys_filter kargs hnd
  have hfr' : ∀ p ∈ (createdType st base kargs).dictInst,
      ∃ f, p.2 = PyVal.callable f ∧ FreshFun f := by
    rw [createdType_dictInst]
    intro p hp
    exact hfr p (List.mem_filter.mp hp).1 (List.mem_filter.mp hp).2
  obtain ⟨s₁, m₁, hsf₁, hle₁, hall₁⟩ :=
    setFactoryAttrs_fresh _ hnd' hfr' Inst.empty n
  obtain ⟨s₂, m₂, hsf₂, hle₂, hall₂⟩ :=
    setFactoryAttrs_fresh _ hnd' hfr' Inst.empty m₁
  refine ⟨_, m₁, _, m₂,
    initType_eq _ _ Inst.empty args₁ kwargs₁ n s₁ m₁ hsf₁,
    initType_eq _ _ Inst.empty args₂ kwargs₂ m₁ s₂ m₂ hsf₂, ?_⟩
  intro p hp
  obtain ⟨a, ha, hna, ham⟩ := hall₁ p hp
  obtain ⟨b, hb, hmb, hbm⟩ := hall₂ p hp
  exact ⟨a, b, ha, hb, Nat.ne_of_lt (Nat.lt_of_lt_of_le ham hmb)⟩

/-- Witness for the amended C4: `create("Foo", list, bar=<allocating
producer>)`, then two consecutive constructions. -/
theorem create_factory_fresh_spec_witness :
    ∃ i₁ n₁ i₂ n₂,
      newInstance (createdType initialState listType
        [("bar", freshProducer)]) [] [] 0 = some (i₁, n₁) ∧
      newInstance (createdType initialState listType
        [("bar", freshProducer)]) [] [] n₁ = some (i₂, n₂) ∧
      ∀ p ∈ (createdType initialState listType
          [("bar", freshProducer)]).dictInst,
        ∃ a b, dictLookup i₁.attrs p.1 = some (PyVal.obj a) ∧
          dictLookup i₂.attrs p.1 = some (PyVal.obj b) ∧ a ≠ b :=
  create_factory_fresh_spec initialState listType [("bar", freshProducer)]
    (by simp)
    (by
      intro p hp _
      simp only [List.mem_singleton] at hp
      subst hp
      exact ⟨fun n => (PyVal.obj n, n + 1), rfl,
        fun n => ⟨n, n + 1, rfl, Nat.le_refl n, Nat.lt_succ_self n⟩⟩)
    [] [] [] [] 0

/-- Claim C5: replacement lookup is a pure lookup with default-to-identity —
a base whose identity keys `class_replacers` is replaced by that key's value,
any other base is used unchanged, the lookup is a total function (it raises
nothing), and the synthesized type is built on the looked-up base. -/
theorem replace_lookup_spec (st : CreatorState) (base : PyType)
    (hnd : (st.class_replacers.map Prod.fst).Nodup)
    (kargs : List (String × PyVal)) :
    (∀ rep, (base.tid, rep) ∈ st.class_replacers →
      replaceBase st.class_replacers base = rep) ∧
    (base.tid ∉ st.class_replacers.map Prod.fst →
      replaceBase st.class_replacers base = base) ∧
    (createdType st base kargs).ty.mro
      = st.nextTid :: (replaceBase st.class_replacers base).mro ∧
    (createdType st base kargs).baseHasCustomInit
      = (replaceBase st.class_replacers base).hasCustomInit := by
  refine ⟨?_, ?_, rfl, rfl⟩
  · intro rep hmem
    unfold replaceBase
    rw [dictLookup_of_mem st.class_replacers base.tid rep hnd hmem]
  · intro hnot
    unfold replaceBase
    rw [dictLookup_eq_none_of_notmem st.class_replacers base.tid hnot]

/-- Witness for C5 on the shipped registry: `array.array` is replaced by
`_array`, `list` is left unchanged. -/
theorem replace_lookup_spec_witness :
    replaceBase initialState.class_replacers arrayArrayType = arrType ∧
    replaceBase initialState.class_replacers listType = listType :=
  ⟨(replace_lookup_spec initialState arrayArrayType (by decide) []).1 arrType
      (by simp [initialState, builtinReplacers]),
   (replace_lookup_spec initialState listType (by decide) []).2.1
      (by simp [initialState, builtinReplacers, listType, arrayArrayType])⟩

/-- Claim C6: calling `create` a second time with the same name raises no
error (`create` is a total function) and silently overwrites: afterwards the
name resolves in the module globals to the type produced by the most recent
call, and the namespace holds no other binding of that name. -/
theorem create_overwrite_spec (st : CreatorState) (name : String)
    (base₁ : PyType) (kargs₁ : List (String × PyVal))
    (base₂ : PyType) (kargs₂ : List (String × PyVal)) :
    dictLookup
        (create (create st name base₁ kargs₁) name base₂ kargs₂).globalsMap
        name
      = some (createdType (create st name base₁ kargs₁) base₂ kargs₂) ∧
    (create (create st name base₁ kargs₁) name base₂ kargs₂).globalsMap.filter
        (fun p => p.1 = name)
      = [(name, createdType (create st name base₁ kargs₁) base₂ kargs₂)] := by
  constructor
  · exact dictLookup_dictSet_self _ name _
  · exact filter_key_dictSet _ name _

/-- Witness for C6: the same name registered twice resolves to the second
type. -/
theorem create_overwrite_spec_witness :
    dictLookup (create (create initialState "Foo" listType [])
        "Foo" arrayArrayType []).globalsMap "Foo"
      = some (createdType (create initialState "Foo" listType [])
          arrayArrayType []) :=
  (create_overwrite_spec initialState "Foo" listType [] arrayArrayType []).1

/-- Claim C9: `create` binds exactly one name in the module globals — the
name it was given — leaves every other binding unchanged, and leaves the
`class_replacers` registry untouched (it only reads it). -/
theorem create_frame_spec (st : CreatorState) (name : String) (base : PyType)
    (kargs : List (String × PyVal)) :
    (create st name base kargs).class_replacers = st.class_replacers ∧
    dictLookup (create st name base kargs).globalsMap name
      = some (createdType st base kargs) ∧
    ∀ other, other ≠ name →
      dictLookup (create st name base kargs).globalsMap other
        = dictLookup st.globalsMap other := by
  refine ⟨rfl, dictLookup_dictSet_self _ name _, ?_⟩
  intro other hother
  exact dictLookup_dictSet_ne st.globalsMap name other _ hother

/-- Witness for C9: after `create("Foo", list)`, an unrelated name is still
unbound. -/
theorem create_frame_spec_witness :
    dictLookup (create initialState "Foo" listType []).globalsMap "Bar"
      = none := by
  rw [(create_frame_spec initialState "Foo" listType []).2.2 "Bar" (by decide)]
  rfl

/-- Claim C7: an `_array` instance constructed from a sequence of numbers
holds exactly those numbers, in order; deep-copying an instance preserves the
class and the element data, and the copy's instance attributes are the deep
copy of the original's attribute mapping. -/
theorem array_deepcopy_spec (tc : Char) (seq : List Int)
    (self : ArrayInst) (n : Nat)
    (hnd : (self.attrdict.map Prod.fst).Nodup) :
    (arrayNew tc seq).elems = seq ∧
    (arrayDeepcopy self n).1.elems = self.elems ∧
    (arrayDeepcopy self n).1.typecode = self.typecode ∧
    ∀ k, dictLookup (arrayDeepcopy self n).1.attrdict k
      = dictLookup (deepcopyDict self.attrdict n).1 k := by
  refine ⟨rfl, rfl, rfl, ?_⟩
  intro k
  show dictLookup (dictUpdate [] (deepcopyDict self.attrdict n).1) k = _
  exact dictLookup_dictUpdate_nil _ (by rw [deepcopyDict_keys]; exact hnd) k

/-- Witness for C7 on `_array('i', [1, 2, 3])` carrying one instance
attribute. -/
theorem array_deepcopy_spec_witness :
    (arrayDeepcopy ⟨'i', [1, 2, 3], [("fit", PyVal.obj 5)]⟩ 100).1.elems
      = [1, 2, 3] ∧
    dictLookup (arrayDeepcopy ⟨'i', [1, 2, 3],
        [("fit", PyVal.obj 5)]⟩ 100).1.attrdict "fit"
      = dictLookup (deepcopyDict [("fit", PyVal.obj 5)] 100).1 "fit" :=
  ⟨(array_deepcopy_spec 'i' [1, 2, 3]
      ⟨'i', [1, 2, 3], [("fit", PyVal.obj 5)]⟩ 100 (by simp)).2.1,
   (array_deepcopy_spec 'i' [1, 2, 3]
      ⟨'i', [1, 2, 3], [("fit", PyVal.obj 5)]⟩ 100 (by simp)).2.2.2 "fit"⟩

/-- Claim C8: `_array.__reduce__` returns the class, a one-element argument
tuple holding the list of the elements, and the instance-attribute mapping;
applying the class to those arguments and restoring the mapping reconstructs
an instance with the same elements and the same instance attributes. -/
theorem array_reduce_spec (self : ArrayInst)
    (hnd : (self.attrdict.map Prod.fst).Nodup) :
    arrayReduce self = (self.typecode, [self.elems], self.attrdict) ∧
    ∃ inst, reconstructFromReduce (arrayReduce self) = some inst ∧
      inst.typecode = self.typecode ∧ inst.elems = self.elems ∧
      ∀ k, dictLookup inst.attrdict k = dictLookup self.attrdict k := by
  refine ⟨rfl, _, rfl, rfl, rfl, ?_⟩
  intro k
  show dictLookup (dictUpdate [] self.attrdict) k = _
  exact dictLookup_dictUpdate_nil self.attrdict hnd k

/-- Witness for C8 on `_array('d', [4, 5])` carrying one instance
attribute. -/
theorem array_reduce_spec_witness :
    arrayReduce ⟨'d', [4, 5], [("w", PyVal.prim 9)]⟩
      = ('d', [[4, 5]], [("w", PyVal.prim 9)]) ∧
    ∃ inst, reconstructFromReduce
        (arrayReduce ⟨'d', [4, 5], [("w", PyVal.prim 9)]⟩) = some inst ∧
      inst.typecode = 'd' ∧ inst.elems = [4, 5] ∧
      ∀ k, dictLookup inst.attrdict k
        = dictLookup [("w", PyVal.prim 9)] k :=
  array_reduce_spec ⟨'d', [4, 5], [("w", PyVal.prim 9)]⟩ (by simp)

/-- Counterexample to claim C10 as stated: `create("A", array.array)` with no
keyword attributes synthesizes a type whose zero-argument construction
raises — the class declares no `typecode` attribute, so the `cls.typecode`
read on line 77 reaches `array.array`'s getset descriptor instead of a
typecode string and `array.array.__new__` raises `TypeError`.  So not every
type synthesized over `array.array` can be instantiated with zero
arguments. -/
theorem array_zero_arg_counterexample :
    newArrayInstance (createdType initialState arrayArrayType []) 0 = none :=
  rfl

/-- Claim C10 (amended): the sequence argument of `_array.__new__` defaults
to the empty tuple, and a type synthesized over `array.array` whose class
namespace declares a one-character `typecode` attribute (a static keyword
attribute of `create`) can be instantiated with zero arguments: `__new__`
succeeds and yields an empty array of that typecode, and the installed
initializer succeeds on the empty argument list.  Without such an attribute,
`cls.typecode` is unusable and `array.array.__new__` raises `TypeError`
(see the counterexample). -/
theorem array_zero_arg_decl_spec (tc : Char) (st : CreatorState)
    (kargs : List (String × PyVal)) (s : String)
    (htc : dictLookup (createdType st arrayArrayType kargs).ty.clsDict
      "typecode" = some (PyVal.str s))
    (hs : s.toList = [tc]) (n : Nat) :
    arrayNewDefault tc = arrayNew tc [] ∧
    ∃ arr self n',
      newArrayInstance (createdType st arrayArrayType kargs) n
        = some (arr, self, n') ∧
      arr.elems = [] ∧ arr.typecode = tc := by
  refine ⟨rfl, ?_⟩
  have htca : clsTypecodeAttr (createdType st arrayArrayType kargs)
      = some tc := by
    unfold clsTypecodeAttr
    rw [htc]
    show (match s.toList with | [c] => some c | _ => none) = some tc
    rw [hs]
  have hc : ∀ p ∈ (createdType st arrayArrayType kargs).dictInst,
      hasCall p.2 = true := by
    rw [createdType_dictInst]
    intro p hp
    exact (List.mem_filter.mp hp).2
  obtain ⟨⟨self₁, n₁⟩, hsf⟩ := setFactoryAttrs_isSome _ hc Inst.empty n
  have hrun : newArrayInstance (createdType st arrayArrayType kargs) n
      = some (arrayNew tc [],
          callBaseInit self₁
            (if (createdType st arrayArrayType kargs).baseHasCustomInit
              then [] else [])
            (if (createdType st arrayArrayType kargs).baseHasCustomInit
              then [] else []), n₁) := by
    unfold newArrayInstance
    rw [htca]
    simp only [arrayNewOnClass]
    rw [initType_eq _ _ Inst.empty [] [] n self₁ n₁ hsf]
  exact ⟨arrayNew tc [], _, n₁, hrun, rfl, rfl⟩

/-- Witness for the amended C10:
`create("A", array.array, typecode="d", bar=<allocating producer>)`,
then `A()`. -/
theorem array_zero_arg_decl_spec_witness :
    arrayNewDefault 'd' = arrayNew 'd' [] ∧
    ∃ arr self n',
      newArrayInstance (createdType initialState arrayArrayType
        [("typecode", PyVal.str "d"), ("bar", freshProducer)]) 0
        = some (arr, self, n') ∧
      arr.elems = [] ∧ arr.typecode = 'd' :=
  array_zero_arg_decl_spec 'd' initialState
    [("typecode", PyVal.str "d"), ("bar", freshProducer)] "d" rfl rfl 0

end DeapCreator
